import Mathlib

set_option maxRecDepth 10000
set_option maxHeartbeats 2000000

/-!
Verification of the question-to-Cypher mapping engine of the
knowledge-graph question-answering backend.

The Python module `api/nlp_mapping.py` is embedded shallowly: Python
strings become `List Char` (`PyStr`), Python string methods (`strip`,
`lower`, `replace(_, _, 1)`, `rstrip("?")`, `split`, `in`, slicing)
become executable Lean functions with the same semantics on the ASCII
inputs the engine handles, and `map_question`'s cascade of early
returns becomes a chain of if-then-else branches over the same
predicates and builders.  Parameter dicts become association lists in
insertion order; Cypher query strings are reproduced fragment by
fragment exactly as the source concatenates them (literal braces are
written with the \x7b / \x7d escapes and single quotes with \x27).
The parameter normalization of `api/neo4j_service.py::run_cypher` is
embedded as a pure function from the incoming bag to the executed copy.
-/

namespace KGQA

/-- Python strings, modelled as lists of characters. -/
abbrev PyStr := List Char

/-- Turn a Lean string literal into a `PyStr`. -/
def pstr (s : String) : PyStr := s.data

/-- ASCII lower-casing of one character, as Python `str.lower` acts on
the ASCII range handled by the engine. -/
def lowerChar (c : Char) : Char :=
  if 65 ≤ c.toNat ∧ c.toNat ≤ 90 then Char.ofNat (c.toNat + 32) else c

/-- Python whitespace test for the characters `str.strip` removes
(space, tab, newline, carriage return). -/
def isSpace (c : Char) : Bool :=
  c.toNat == 32 || c.toNat == 9 || c.toNat == 10 || c.toNat == 13

/-- Python `s.lower()`. -/
def pyLower (s : PyStr) : PyStr := s.map lowerChar

/-- Python `s.lstrip()`. -/
def lstrip (s : PyStr) : PyStr := s.dropWhile isSpace

/-- Python `s.rstrip()`. -/
def rstrip (s : PyStr) : PyStr := (s.reverse.dropWhile isSpace).reverse

/-- Python `s.strip()`. -/
def pyStrip (s : PyStr) : PyStr := rstrip (lstrip s)

/-- Python `s.rstrip("?")`: drop every trailing question mark. -/
def rstripQmark (s : PyStr) : PyStr := (s.reverse.dropWhile (fun c => c == '?')).reverse

/-- Python `s.replace(pat, repl, 1)`: replace the first occurrence of
`pat` (here always non-empty in the callers) by `repl`. -/
def replaceFirst (pat repl : PyStr) : PyStr → PyStr
  | [] => if pat.isPrefixOf ([] : PyStr) then repl else []
  | c :: rest =>
    if pat.isPrefixOf (c :: rest) then repl ++ (c :: rest).drop pat.length
    else c :: replaceFirst pat repl rest

/-- Python `needle in hay` for strings: substring containment. -/
def hasSubstr (needle : PyStr) : PyStr → Bool
  | [] => needle.isPrefixOf ([] : PyStr)
  | c :: rest => needle.isPrefixOf (c :: rest) || hasSubstr needle rest

/-- Python `s.split()`: split on whitespace runs, discarding empties. -/
def splitWs (s : PyStr) : List PyStr :=
  (List.splitOnP isSpace s).filter (fun w => w ≠ [])

/-- Python `s[a:-b]` for non-negative `a`, `b` (used for the
`"where is <person> located?"` rule): drop the first `a` characters and
the last `b` (an over-long drop clamps to the empty string, as the
Python slice does). -/
def sliceBetween (a b : Nat) (s : PyStr) : PyStr :=
  (((s.drop a).reverse).drop b).reverse

/-- Values that appear in a parameter dict: strings, integers, lists of
strings, and Python `None`. -/
inductive PValue where
  | str : PyStr → PValue
  | int : Int → PValue
  | strlist : List PyStr → PValue
  | null : PValue
deriving DecidableEq, Repr

/-- A parameter dict in insertion order. -/
abbrev ParamBag := List (String × PValue)

/-- `CypherQuery` from `nlp_mapping.py` (lines 13-19): a query string
plus its parameters. -/
structure CypherQuery where
  query : String
  parameters : ParamBag
deriving DecidableEq, Repr

/-- Insert into a (modelled) Python set, keeping first-insertion order
and dropping duplicates. -/
def insertUniq (x : PyStr) (l : List PyStr) : List PyStr :=
  if x ∈ l then l else l ++ [x]

/-- The literal canonical full name added by the demo alias heuristic. -/
def sachinFull : PyStr := pstr "Sachin Tendulkar"

/-- The demo condition of `_normalize_person_input` (lines 119-120):
the period-stripped input splits into exactly two tokens, the first a
single letter and the second case-insensitively `tendulkar`. -/
def sachinAliasCond (p : PyStr) : Prop :=
  let tokens := splitWs (p.filter (fun c => c != '.'))
  tokens.length = 2 ∧ (tokens.headD []).length = 1 ∧
    pyLower (tokens.getD 1 []) = pstr "tendulkar"

instance (p : PyStr) : Decidable (sachinAliasCond p) := by
  unfold sachinAliasCond
  exact inferInstance

/-- `RuleBasedNLPMappings._normalize_person_input` (lines 103-123):
alias expansion of a user-supplied person name.  The Python set
`{p, p.replace(".", "").strip()}` is modelled as an insertion-ordered
deduplicated list. -/
def normalizePersonInput (person : PyStr) : List PyStr :=
  let p := pyStrip person
  if p = [] then []
  else
    let variants := insertUniq (pyStrip (p.filter (fun c => c != '.'))) [p]
    let variants2 := if sachinAliasCond p then insertUniq sachinFull variants else variants
    variants2.filter (fun v => v ≠ [])

/-- The single-person disjunct of `_person_where_clause` (lines 140-146),
concatenated fragment by fragment as the source writes it, with `f = "p"`. -/
def singlePred : String :=
  "(" ++
  " toLower(p.name) CONTAINS toLower(coalesce($person, \x27\x27)) OR " ++
  " toLower(coalesce(p.full_name, \x27\x27)) CONTAINS toLower(coalesce($person, \x27\x27)) OR " ++
  " toLower(coalesce(p.nickname, \x27\x27)) CONTAINS toLower(coalesce($person, \x27\x27)) " ++
  ")"

/-- The alias-list disjunct of `_person_where_clause` (lines 148-156). -/
def listPred : String :=
  "(" ++
  " ANY(personParam IN coalesce($persons, []) WHERE " ++
  "   toLower(p.name) CONTAINS toLower(personParam) OR " ++
  "   toLower(coalesce(p.full_name, \x27\x27)) CONTAINS toLower(personParam) OR " ++
  "   toLower(coalesce(p.nickname, \x27\x27)) CONTAINS toLower(personParam)" ++
  " )" ++
  ")"

/-- `RuleBasedNLPMappings._person_where_clause("p")` (line 159). -/
def personWhereClause : String := "((" ++ listPred ++ ") OR (" ++ singlePred ++ "))"

/-- Template of the `who works at <organization>` rule (lines 185-191). -/
def whoWorksAtQuery : String :=
  "MATCH (p:Person)-[:WORKS_AT]->(o:Organization \x7bname: $org\x7d) " ++
  "RETURN p.name AS person LIMIT $top_k"

/-- Template of the `where is <person> located` rule (lines 203-210). -/
def whereLocatedQuery : String :=
  "MATCH (p:Person)-[:LOCATED_IN]->(l:Location) " ++
  "WHERE " ++ personWhereClause ++ " " ++
  "RETURN l.name AS location LIMIT $top_k"

/-- Template of the `list people in <organization>` rule (lines 216-222). -/
def listPeopleQuery : String :=
  "MATCH (o:Organization \x7bname: $org\x7d)<-[:WORKS_AT]-(p:Person) " ++
  "RETURN p.name AS person ORDER BY p.name LIMIT $top_k"

/-- Template of the `what organizations is <person> affiliated with` rule
(lines 234-241). -/
def affiliatedQuery : String :=
  "MATCH (p:Person)-[:WORKS_AT]->(o:Organization) " ++
  "WHERE " ++ personWhereClause ++ " " ++
  "RETURN o.name AS organization ORDER BY o.name LIMIT $top_k"

/-- Template of the coach rule (lines 261-273). -/
def coachQuery : String :=
  "MATCH (p:Person) " ++
  "WHERE " ++ personWhereClause ++ " " ++
  "OPTIONAL MATCH (c1:Person)-[:COACHED]->(p) " ++
  "OPTIONAL MATCH (p)-[:COACHED_BY]->(c2:Person) " ++
  "WITH p, coalesce(c1, c2) AS coach " ++
  "WHERE coach IS NOT NULL " ++
  "RETURN DISTINCT coach.name AS coach " ++
  "LIMIT $top_k"

/-- Template of the generic `who is <person>` fallback rule (lines 285-295). -/
def whoIsQuery : String :=
  "MATCH (p:Person) " ++
  "WHERE " ++ personWhereClause ++ " " ++
  "OPTIONAL MATCH (p)-[:WORKS_AT]->(o:Organization) " ++
  "OPTIONAL MATCH (p)-[:LOCATED_IN]->(l:Location) " ++
  "RETURN p.name AS person, o.name AS organization, l.name AS location " ++
  "LIMIT $top_k"

/-- Template of the Sachin teams rule (lines 308-317). -/
def teamsQuery : String :=
  "MATCH (p:Person)-[:PLAYED_FOR|:REPRESENTED|:CAPTAINED]->(t) " ++
  "WHERE " ++ personWhereClause ++ " " ++
  "RETURN DISTINCT t.name AS team " ++
  "ORDER BY team " ++
  "LIMIT $top_k"

/-- Template of the Sachin records rule (lines 322-331). -/
def recordsQuery : String :=
  "MATCH (p:Person)-[:HOLDS_RECORD]->(r:Record) " ++
  "WHERE " ++ personWhereClause ++ " " ++
  "RETURN r.label AS record, r.value AS value, r.unit AS unit, r.year AS year " ++
  "ORDER BY record " ++
  "LIMIT $top_k"

/-- Template of the Sachin debut rule (lines 353-363). -/
def debutQuery : String :=
  "MATCH (p:Person)-[:DEBUTED_IN]->(d:Record \x7btype:\x27Debut\x27\x7d) " ++
  "WHERE " ++ personWhereClause ++ " " ++
  "AND (($format IS NULL) OR toLower(d.format) = toLower($format)) " ++
  "RETURN d.format AS format, d.year AS year, d.opponent AS opponent, d.location AS location " ++
  "ORDER BY d.year ASC " ++
  "LIMIT $top_k"

/-- Template of the Sachin retirement rule (lines 368-378). -/
def retireQuery : String :=
  "MATCH (p:Person)-[:RETIRED_IN]->(r:Record \x7btype:\x27Retirement\x27\x7d) " ++
  "WHERE " ++ personWhereClause ++ " " ++
  "AND (($format IS NULL) OR toLower(r.format) = toLower($format)) " ++
  "RETURN r.format AS format, r.year AS year, r.opponent AS opponent, r.location AS location " ++
  "ORDER BY r.year ASC " ++
  "LIMIT $top_k"

/-- Template of the Sachin career-statistics rule (lines 384-395). -/
def statsQuery : String :=
  "MATCH (p:Person)-[:FORMAT_STATS]->(s:Record \x7btype:\x27Stats\x27\x7d) " ++
  "WHERE " ++ personWhereClause ++ " " ++
  "AND (($format IS NULL) OR toLower(s.format) = toLower($format)) " ++
  "RETURN s.format AS format, s.matches AS matches, s.runs AS runs, " ++
  "s.hundreds AS hundreds, s.fifties AS fifties, s.average AS average " ++
  "ORDER BY s.format " ++
  "LIMIT $top_k"

/-- Template of the Sachin birthplace rule (lines 400-409). -/
def bornQuery : String :=
  "MATCH (p:Person)-[:BORN_IN]->(c:City) " ++
  "WHERE " ++ personWhereClause ++ " " ++
  "OPTIONAL MATCH (c)-[:IN_COUNTRY]->(country:Country) " ++
  "RETURN c.name AS city, country.name AS country " ++
  "LIMIT $top_k"

/-- Template of the `tell me about` general-info rule (lines 413-426).
Note the hard-coded `LIMIT 1`. -/
def tellMeAboutQuery : String :=
  "MATCH (p:Person) " ++
  "WHERE " ++ personWhereClause ++ " " ++
  "OPTIONAL MATCH (p)-[:BORN_IN]->(city:City) " ++
  "OPTIONAL MATCH (p)-[:FORMAT_STATS]->(s:Record \x7btype:\x27Stats\x27\x7d) " ++
  "RETURN p.name AS name, p.full_name AS full_name, p.nickname AS nickname, " ++
  "p.batting_style AS batting_style, p.bowling_style AS bowling_style, " ++
  "p.birth_year AS birth_year, city.name AS birth_city, " ++
  "collect(\x7bformat:s.format, runs:s.runs, matches:s.matches, hundreds:s.hundreds, fifties:s.fifties, average:s.average\x7d) AS formats " ++
  "LIMIT 1"

/-- Variable extraction of the `who works at ` rule (line 183). -/
def extractWhoWorksAt (q : PyStr) : PyStr :=
  pyStrip (rstripQmark (replaceFirst (pstr "who works at ") [] q))

/-- Variable extraction of the `where is ... located?` rule (line 195):
a slice dropping the 9-character marker on each side, then `strip`. -/
def extractWhereLocated (q : PyStr) : PyStr :=
  pyStrip (sliceBetween 9 9 q)

/-- Variable extraction of the `list people in ` rule (line 214). -/
def extractListPeople (q : PyStr) : PyStr :=
  pyStrip (rstripQmark (replaceFirst (pstr "list people in ") [] q))

/-- Variable extraction of the affiliation rule (line 226). -/
def extractAffiliated (q : PyStr) : PyStr :=
  pyStrip (replaceFirst (pstr " affiliated with?") [] (replaceFirst (pstr "what organizations is ") [] q))

/-- Variable extraction of the coach rule (lines 246-251). -/
def extractCoach (q : PyStr) : PyStr :=
  pyStrip (rstripQmark (replaceFirst (pstr "who coached ") [] (replaceFirst (pstr "who is the coach of ") [] q)))

/-- Variable extraction of the `who is ` fallback rule (line 277). -/
def extractWhoIs (q : PyStr) : PyStr :=
  pyStrip (rstripQmark (replaceFirst (pstr "who is ") [] q))

/-- `_extract_format` (lines 334-348): fixed-priority substring checks;
`"international"` deliberately resolves to `none` (no filter). -/
def extractFormat (text : PyStr) : Option PyStr :=
  if hasSubstr (pstr "test") text then some (pstr "Test")
  else if hasSubstr (pstr "odi") text then some (pstr "ODI")
  else if hasSubstr (pstr "t20i") text || hasSubstr (pstr "t20") text then some (pstr "T20I")
  else if hasSubstr (pstr "ipl") text then some (pstr "IPL")
  else if hasSubstr (pstr "international") text then none
  else none

/-- The `format` parameter value derived from `_extract_format`. -/
def formatValue (text : PyStr) : PValue :=
  match extractFormat text with
  | some f => .str f
  | none => .null

/-- Parameter bag of the person-referencing rules (lines 198-202 and the
identical blocks at 229-233, 254-258, 280-284): `top_k` first, then either
the alias list under `persons` or a single name under `person`. -/
@[irreducible] def personParams (persons : List PyStr) (fallback : PyStr) (top_k : Int) : ParamBag :=
  if 1 < persons.length then [("top_k", .int top_k), ("persons", .strlist persons)]
  else [("top_k", .int top_k), ("person", .str (persons.headD fallback))]

/-- Predicate of rule 1, `who works at ` (line 182), combined with the
non-empty-variable guard of line 184. -/
def whoWorksAtPred (q : PyStr) : Bool :=
  (pstr "who works at ").isPrefixOf q && extractWhoWorksAt q != []

/-- Predicate of rule 2, `where is ... located?` (lines 194-196). -/
def whereLocatedPred (q : PyStr) : Bool :=
  (pstr "where is ").isPrefixOf q && (pstr " located?").isSuffixOf q
    && extractWhereLocated q != []

/-- Predicate of rule 3, `list people in ` (lines 213-215). -/
def listPeoplePred (q : PyStr) : Bool :=
  (pstr "list people in ").isPrefixOf q && extractListPeople q != []

/-- Predicate of rule 4, the affiliation rule (lines 225-227). -/
def affiliatedPred (q : PyStr) : Bool :=
  (pstr "what organizations is ").isPrefixOf q && (pstr " affiliated with?").isSuffixOf q
    && extractAffiliated q != []

/-- Predicate of rule 5, the coach rule (lines 245-252). -/
def coachPred (q : PyStr) : Bool :=
  ((pstr "who is the coach of ").isPrefixOf q || (pstr "who coached ").isPrefixOf q)
    && extractCoach q != []

/-- Predicate of rule 6, the `who is ` fallback (lines 276-278). -/
def whoIsPred (q : PyStr) : Bool :=
  (pstr "who is ").isPrefixOf q && extractWhoIs q != []

/-- Predicate of rule 7, Sachin teams (lines 306-307). -/
def teamsPred (q : PyStr) : Bool :=
  (hasSubstr (pstr "what teams did") q && hasSubstr (pstr "sachin tendulkar") q
      && hasSubstr (pstr "play for") q)
    || pyStrip q == pstr "teams sachin tendulkar played for?"

/-- Predicate of rule 8, Sachin records (lines 320-321). -/
def recordsPred (q : PyStr) : Bool :=
  (hasSubstr (pstr "what records does") q && hasSubstr (pstr "sachin tendulkar") q
      && hasSubstr (pstr "hold") q)
    || pyStrip q == pstr "sachin tendulkar records?"
    || pyStrip q == pstr "records of sachin tendulkar?"

/-- Predicate of rule 9, Sachin debut (line 351). -/
def debutPred (q : PyStr) : Bool :=
  hasSubstr (pstr "when did") q && hasSubstr (pstr "sachin tendulkar") q
    && hasSubstr (pstr "debut") q

/-- Predicate of rule 10, Sachin retirement (line 366). -/
def retirePred (q : PyStr) : Bool :=
  hasSubstr (pstr "when did") q && hasSubstr (pstr "sachin tendulkar") q
    && hasSubstr (pstr "retire") q

/-- Predicate of rule 11, Sachin career statistics (lines 381-382). -/
def statsPred (q : PyStr) : Bool :=
  (hasSubstr (pstr "what are the career statistics of") q
      || hasSubstr (pstr "career statistics of") q || hasSubstr (pstr "stats of") q)
    && hasSubstr (pstr "sachin tendulkar") q

/-- Predicate of rule 12, Sachin birthplace (lines 398-399). -/
def bornPred (q : PyStr) : Bool :=
  (hasSubstr (pstr "where was") q && hasSubstr (pstr "sachin tendulkar") q
      && hasSubstr (pstr "born") q)
    || pyStrip q == pstr "sachin tendulkar birthplace?"
    || pyStrip q == pstr "birthplace of sachin tendulkar?"

/-- Predicate of rule 13, `tell me about` (line 412); Python operator
precedence groups it as `(startswith and contains) or (strip in set)`. -/
def tellMeAboutPred (q : PyStr) : Bool :=
  ((pstr "tell me about ").isPrefixOf q && hasSubstr (pstr "sachin tendulkar") q)
    || pyStrip q == pstr "about sachin tendulkar"
    || pyStrip q == pstr "who is sachin tendulkar"

/-- Builder of rule 1 (lines 185-191). -/
def whoWorksAtBuild (q : PyStr) (top_k : Int) : CypherQuery :=
  ⟨whoWorksAtQuery, [("org", .str (extractWhoWorksAt q)), ("top_k", .int top_k)]⟩

/-- Builder of rule 2 (lines 197-210). -/
def whereLocatedBuild (q : PyStr) (top_k : Int) : CypherQuery :=
  ⟨whereLocatedQuery,
    personParams (normalizePersonInput (extractWhereLocated q)) (extractWhereLocated q) top_k⟩

/-- Builder of rule 3 (lines 216-222). -/
def listPeopleBuild (q : PyStr) (top_k : Int) : CypherQuery :=
  ⟨listPeopleQuery, [("org", .str (extractListPeople q)), ("top_k", .int top_k)]⟩

/-- Builder of rule 4 (lines 228-241). -/
def affiliatedBuild (q : PyStr) (top_k : Int) : CypherQuery :=
  ⟨affiliatedQuery,
    personParams (normalizePersonInput (extractAffiliated q)) (extractAffiliated q) top_k⟩

/-- Builder of rule 5 (lines 253-273). -/
def coachBuild (q : PyStr) (top_k : Int) : CypherQuery :=
  ⟨coachQuery, personParams (normalizePersonInput (extractCoach q)) (extractCoach q) top_k⟩

/-- Builder of rule 6 (lines 279-295). -/
def whoIsBuild (q : PyStr) (top_k : Int) : CypherQuery :=
  ⟨whoIsQuery, personParams (normalizePersonInput (extractWhoIs q)) (extractWhoIs q) top_k⟩

/-- Builder of rule 7 (lines 308-317). -/
def teamsBuild (_ : PyStr) (top_k : Int) : CypherQuery :=
  ⟨teamsQuery, [("person", .str sachinFull), ("top_k", .int top_k)]⟩

/-- Builder of rule 8 (lines 322-331). -/
def recordsBuild (_ : PyStr) (top_k : Int) : CypherQuery :=
  ⟨recordsQuery, [("person", .str sachinFull), ("top_k", .int top_k)]⟩

/-- Builder of rule 9 (lines 352-363). -/
def debutBuild (q : PyStr) (top_k : Int) : CypherQuery :=
  ⟨debutQuery, [("person", .str sachinFull), ("format", formatValue q), ("top_k", .int top_k)]⟩

/-- Builder of rule 10 (lines 367-378). -/
def retireBuild (q : PyStr) (top_k : Int) : CypherQuery :=
  ⟨retireQuery, [("person", .str sachinFull), ("format", formatValue q), ("top_k", .int top_k)]⟩

/-- Builder of rule 11 (lines 383-395). -/
def statsBuild (q : PyStr) (top_k : Int) : CypherQuery :=
  ⟨statsQuery, [("person", .str sachinFull), ("format", formatValue q), ("top_k", .int top_k)]⟩

/-- Builder of rule 12 (lines 400-409). -/
def bornBuild (_ : PyStr) (top_k : Int) : CypherQuery :=
  ⟨bornQuery, [("person", .str sachinFull), ("top_k", .int top_k)]⟩

/-- Builder of rule 13 (lines 413-426): the parameter dict is
`{"person": "Sachin Tendulkar"}` only — no `top_k` entry. -/
def tellMeAboutBuild (_ : PyStr) (_ : Int) : CypherQuery :=
  ⟨tellMeAboutQuery, [("person", .str sachinFull)]⟩

/-- A rule entry: predicate over the normalized question and builder. -/
abbrev Rule := (PyStr → Bool) × (PyStr → Int → CypherQuery)

/-- The thirteen rules of `map_question` in source order. -/
def rulesList : List Rule :=
  [(whoWorksAtPred, whoWorksAtBuild),
   (whereLocatedPred, whereLocatedBuild),
   (listPeoplePred, listPeopleBuild),
   (affiliatedPred, affiliatedBuild),
   (coachPred, coachBuild),
   (whoIsPred, whoIsBuild),
   (teamsPred, teamsBuild),
   (recordsPred, recordsBuild),
   (debutPred, debutBuild),
   (retirePred, retireBuild),
   (statsPred, statsBuild),
   (bornPred, bornBuild),
   (tellMeAboutPred, tellMeAboutBuild)]

/-- The body of `map_question` (lines 181-428) on the normalized
question: the source's chain of `if`-guarded early returns, each guard
combining the rule's marker test with its non-empty-variable check. -/
def mapBody (q : PyStr) (top_k : Int) : Option CypherQuery :=
  if whoWorksAtPred q then some (whoWorksAtBuild q top_k)
  else if whereLocatedPred q then some (whereLocatedBuild q top_k)
  else if listPeoplePred q then some (listPeopleBuild q top_k)
  else if affiliatedPred q then some (affiliatedBuild q top_k)
  else if coachPred q then some (coachBuild q top_k)
  else if whoIsPred q then some (whoIsBuild q top_k)
  else if teamsPred q then some (teamsBuild q top_k)
  else if recordsPred q then some (recordsBuild q top_k)
  else if debutPred q then some (debutBuild q top_k)
  else if retirePred q then some (retireBuild q top_k)
  else if statsPred q then some (statsBuild q top_k)
  else if bornPred q then some (bornBuild q top_k)
  else if tellMeAboutPred q then some (tellMeAboutBuild q top_k)
  else none

/-- Normalization of line 175: `question.strip().lower()`. -/
def normalizeQ (question : PyStr) : PyStr := pyLower (pyStrip question)

/-- `RuleBasedNLPMappings.map_question` (lines 161-428): `None` for a
falsy question (line 172), otherwise the rule cascade on the normalized
text.  A `none` result is the engine's explicit no-match outcome. -/
def mapQuestion (question : PyStr) (top_k : Int) : Option CypherQuery :=
  if question = [] then none
  else mapBody (normalizeQ question) top_k

/-- Index of the first entry of a list satisfying `p`, if any. -/
def firstMatchIdx {α : Type} (p : α → Bool) : List α → Option Nat
  | [] => none
  | a :: l => if p a then some 0 else (firstMatchIdx p l).map (· + 1)

/-- Index of the rule that `map_question` would fire for a question. -/
def matchedRuleIdx (question : PyStr) : Option Nat :=
  firstMatchIdx (fun r => r.1 (normalizeQ question)) rulesList

/-- A parameter value carries no empty user text: `.str` values are
non-empty and `.strlist` values are non-empty lists of non-empty strings. -/
def valueOk : PValue → Bool
  | .str s => !s.isEmpty
  | .strlist l => !l.isEmpty && l.all (fun x => !x.isEmpty)
  | _ => true

/-- Every value in the bag satisfies `valueOk`. -/
def bagNoEmpty (bag : ParamBag) : Bool := bag.all (fun e => valueOk e.2)

/-- First guarded insert of `_Neo4jService.run_cypher`
(`neo4j_service.py` lines 106-110): when `persons` is bound and
`person` absent, and the bound value is a non-empty list, append
`person` as its first element (`params["person"] = lst[0]`; a falsy or
non-list value is skipped by the `or []` / `isinstance` guard). -/
def syncStep1 (params : ParamBag) : ParamBag :=
  if (List.lookup "persons" params).isSome ∧ (List.lookup "person" params).isNone then
    match List.lookup "persons" params with
    | some (.strlist (x :: _)) => params ++ [("person", .str x)]
    | _ => params
  else params

/-- Second guarded insert of `run_cypher` (lines 111-115): when
`person` is bound to a non-empty string and `persons` absent, append
`persons` as the one-element list of that string. -/
def syncStep2 (params : ParamBag) : ParamBag :=
  if (List.lookup "person" params).isSome ∧ (List.lookup "persons" params).isNone then
    match List.lookup "person" params with
    | some (.str p) => if p ≠ [] then params ++ [("persons", .strlist [p])] else params
    | _ => params
  else params

/-- The person/persons synchronization that `_Neo4jService.run_cypher`
applies to a shallow copy of the caller's parameters (lines 99-118), as
a pure function from the incoming bag to the executed copy: the two
guarded inserts in source order.  New keys are appended, existing
entries are untouched, mirroring `params = dict(params)` plus the two
conditional key insertions. -/
def syncPersonParams (params : ParamBag) : ParamBag :=
  syncStep2 (syncStep1 params)

/-- The per-rule person-parameter contract of §4.3, relative to the
name the matched rule extracted: when that name's alias expansion has
more than one element the bag carries the whole expansion under
`persons` and no `person` key; otherwise the expansion is a singleton
and its element is carried under `person` with no `persons` key. -/
def personBagSpec (name : PyStr) (bag : ParamBag) : Prop :=
  (1 < (normalizePersonInput name).length →
    List.lookup "persons" bag = some (.strlist (normalizePersonInput name)) ∧
    List.lookup "person" bag = none) ∧
  ((normalizePersonInput name).length ≤ 1 →
    ∃ p, normalizePersonInput name = [p] ∧
      List.lookup "person" bag = some (.str p) ∧
      List.lookup "persons" bag = none)

/-! ## String-primitive lemmas -/

theorem toNat_ofNat_valid (n : Nat) (h : n < 55296) : (Char.ofNat n).toNat = n := by
  have hv : n.isValidChar := Or.inl h
  simp [Char.ofNat, hv, Char.ofNatAux, Char.toNat, UInt32.toNat, BitVec.toNat_ofNatLt]

theorem isSpace_lowerChar (c : Char) : isSpace (lowerChar c) = isSpace c := by
  unfold lowerChar isSpace
  split
  · rename_i h
    obtain ⟨ha, hb⟩ := h
    have h2 := toNat_ofNat_valid (c.toNat + 32) (by omega)
    rw [h2]
    have e1 : (c.toNat + 32 == 32) = false := by simp; omega
    have e2 : (c.toNat + 32 == 9) = false := by simp
    have e3 : (c.toNat + 32 == 10) = false := by simp
    have e4 : (c.toNat + 32 == 13) = false := by simp
    have f1 : (c.toNat == 32) = false := by simp; omega
    have f2 : (c.toNat == 9) = false := by simp; omega
    have f3 : (c.toNat == 10) = false := by simp; omega
    have f4 : (c.toNat == 13) = false := by simp; omega
    rw [e1, e2, e3, e4, f1, f2, f3, f4]
  · rfl

theorem isSpace_comp_lowerChar : isSpace ∘ lowerChar = isSpace :=
  funext isSpace_lowerChar

theorem head_lstrip_not_space {s : PyStr} {a : Char} {t : PyStr}
    (h : lstrip s = a :: t) : isSpace a = false := by
  induction s with
  | nil => simp [lstrip] at h
  | cons c cs ih =>
    by_cases hc : isSpace c
    · exact ih (by simpa [lstrip, List.dropWhile, hc] using h)
    · rw [lstrip, List.dropWhile] at h
      simp [hc] at h
      rw [← h.1]
      simpa using hc

theorem rstrip_idem (s : PyStr) : rstrip (rstrip s) = rstrip s := by
  unfold rstrip
  rw [List.reverse_reverse, List.dropWhile_idempotent]

theorem lstrip_rstrip_of_lstrip_eq {y : PyStr} (h : lstrip y = y) :
    lstrip (rstrip y) = rstrip y := by
  cases hy : y with
  | nil => simp [rstrip, lstrip, List.dropWhile]
  | cons a t =>
    have ha : isSpace a = false := head_lstrip_not_space (hy ▸ h ▸ hy)
    rw [rstrip]
    rw [List.reverse_cons]
    rw [List.dropWhile_append]
    split
    · simp [lstrip, List.dropWhile, ha]
    · rw [List.reverse_append]
      simp [lstrip, List.dropWhile, ha]

theorem lstrip_idem (s : PyStr) : lstrip (lstrip s) = lstrip s :=
  List.dropWhile_idempotent ..

theorem pyStrip_idem (s : PyStr) : pyStrip (pyStrip s) = pyStrip s := by
  unfold pyStrip
  rw [lstrip_rstrip_of_lstrip_eq (lstrip_idem s), rstrip_idem]

theorem pyLower_lstrip (s : PyStr) : pyLower (lstrip s) = lstrip (pyLower s) := by
  unfold pyLower lstrip
  rw [List.dropWhile_map, isSpace_comp_lowerChar]

theorem pyLower_rstrip (s : PyStr) : pyLower (rstrip s) = rstrip (pyLower s) := by
  unfold pyLower rstrip
  rw [List.map_reverse]
  nth_rewrite 2 [← List.map_reverse]
  rw [List.dropWhile_map, isSpace_comp_lowerChar]

theorem pyLower_pyStrip (s : PyStr) : pyLower (pyStrip s) = pyStrip (pyLower s) := by
  unfold pyStrip
  rw [pyLower_rstrip, pyLower_lstrip]

/-! ## The cascade as first-match over the rule table -/

theorem mapBody_eq_find (q : PyStr) (k : Int) :
    mapBody q k = (rulesList.find? (fun r => r.1 q)).map (fun r => r.2 q k) := by
  unfold mapBody rulesList
  by_cases h1 : whoWorksAtPred q
  · rw [if_pos h1, List.find?_cons_of_pos _ (by exact h1)]; rfl
  rw [if_neg h1, List.find?_cons_of_neg _ (by exact h1)]
  by_cases h2 : whereLocatedPred q
  · rw [if_pos h2, List.find?_cons_of_pos _ (by exact h2)]; rfl
  rw [if_neg h2, List.find?_cons_of_neg _ (by exact h2)]
  by_cases h3 : listPeoplePred q
  · rw [if_pos h3, List.find?_cons_of_pos _ (by exact h3)]; rfl
  rw [if_neg h3, List.find?_cons_of_neg _ (by exact h3)]
  by_cases h4 : affiliatedPred q
  · rw [if_pos h4, List.find?_cons_of_pos _ (by exact h4)]; rfl
  rw [if_neg h4, List.find?_cons_of_neg _ (by exact h4)]
  by_cases h5 : coachPred q
  · rw [if_pos h5, List.find?_cons_of_pos _ (by exact h5)]; rfl
  rw [if_neg h5, List.find?_cons_of_neg _ (by exact h5)]
  by_cases h6 : whoIsPred q
  · rw [if_pos h6, List.find?_cons_of_pos _ (by exact h6)]; rfl
  rw [if_neg h6, List.find?_cons_of_neg _ (by exact h6)]
  by_cases h7 : teamsPred q
  · rw [if_pos h7, List.find?_cons_of_pos _ (by exact h7)]; rfl
  rw [if_neg h7, List.find?_cons_of_neg _ (by exact h7)]
  by_cases h8 : recordsPred q
  · rw [if_pos h8, List.find?_cons_of_pos _ (by exact h8)]; rfl
  rw [if_neg h8, List.find?_cons_of_neg _ (by exact h8)]
  by_cases h9 : debutPred q
  · rw [if_pos h9, List.find?_cons_of_pos _ (by exact h9)]; rfl
  rw [if_neg h9, List.find?_cons_of_neg _ (by exact h9)]
  by_cases h10 : retirePred q
  · rw [if_pos h10, List.find?_cons_of_pos _ (by exact h10)]; rfl
  rw [if_neg h10, List.find?_cons_of_neg _ (by exact h10)]
  by_cases h11 : statsPred q
  · rw [if_pos h11, List.find?_cons_of_pos _ (by exact h11)]; rfl
  rw [if_neg h11, List.find?_cons_of_neg _ (by exact h11)]
  by_cases h12 : bornPred q
  · rw [if_pos h12, List.find?_cons_of_pos _ (by exact h12)]; rfl
  rw [if_neg h12, List.find?_cons_of_neg _ (by exact h12)]
  by_cases h13 : tellMeAboutPred q
  · rw [if_pos h13, List.find?_cons_of_pos _ (by exact h13)]; rfl
  rw [if_neg h13, List.find?_cons_of_neg _ (by exact h13)]
  rfl

theorem mapQuestion_eq_find (q : PyStr) (k : Int) :
    mapQuestion q k =
      if q = [] then none
      else (rulesList.find? (fun r => r.1 (normalizeQ q))).map (fun r => r.2 (normalizeQ q) k) := by
  unfold mapQuestion
  split
  · rfl
  · exact mapBody_eq_find (normalizeQ q) k

theorem find?_first_spec {α : Type} (p : α → Bool) :
    ∀ (l : List α) (i : Nat) (hi : i < l.length), p (l.get ⟨i, hi⟩) = true →
    ∃ j, ∃ hj : j < l.length, j ≤ i ∧ p (l.get ⟨j, hj⟩) = true ∧
      (∀ m (hm : m < l.length), m < j → p (l.get ⟨m, hm⟩) = false) ∧
      l.find? p = some (l.get ⟨j, hj⟩)
  | [], i, hi, _ => absurd hi (by simp)
  | a :: t, i, hi, hp => by
    by_cases ha : p a
    · refine ⟨0, by simp, Nat.zero_le _, by simpa using ha, ?_, ?_⟩
      · intro m hm hm0
        omega
      · rw [List.find?_cons_of_pos _ ha]; rfl
    · cases i with
      | zero => exact absurd (by simpa using hp) ha
      | succ i' =>
        have hi' : i' < t.length := by simpa using hi
        have hp' : p (t.get ⟨i', hi'⟩) = true := by simpa using hp
        obtain ⟨j, hj, hle, hpj, hmin, hfind⟩ := find?_first_spec p t i' hi' hp'
        refine ⟨j + 1, by simpa using Nat.succ_lt_succ hj, Nat.succ_le_succ hle,
          by simpa using hpj, ?_, ?_⟩
        · intro m hm hmj
          cases m with
          | zero => simpa using (Bool.not_eq_true (p a)).mp ha
          | succ m' =>
            have hm' : m' < t.length := by simpa using hm
            simpa using hmin m' hm' (by omega)
        · rw [List.find?_cons_of_neg _ ha]
          simpa using hfind

theorem firstMatchIdx_spec {α : Type} (p : α → Bool) :
    ∀ (l : List α) (i : Nat), firstMatchIdx p l = some i →
    ∃ hi : i < l.length, l.find? p = some (l.get ⟨i, hi⟩)
  | [], i, h => by simp [firstMatchIdx] at h
  | a :: t, i, h => by
    by_cases ha : p a
    · rw [firstMatchIdx, if_pos ha] at h
      injection h with h0
      subst h0
      exact ⟨by simp, by rw [List.find?_cons_of_pos _ ha]; rfl⟩
    · rw [firstMatchIdx, if_neg ha] at h
      rcases Option.map_eq_some'.mp h with ⟨i', hi', rfl⟩
      obtain ⟨hlt, hfind⟩ := firstMatchIdx_spec p t i' hi'
      refine ⟨by simpa using Nat.succ_lt_succ hlt, ?_⟩
      rw [List.find?_cons_of_neg _ ha]
      simpa using hfind

/-! ## Claim theorems -/

/-- Claim C9: `map_question` is invariant under letter case of its
input: two questions with the same lower-casing produce the same
mapping outcome, with the same template and parameter values, because
the engine folds the question to lower case (line 175) before any rule
is evaluated. -/
theorem claim_C9 (q q' : PyStr) (k : Int) (h : pyLower q = pyLower q') :
    mapQuestion q k = mapQuestion q' k := by
  have hnil : q = [] ↔ q' = [] := by
    constructor <;> intro hx
    · have : pyLower q' = [] := by rw [← h, hx]; rfl
      simpa [pyLower] using this
    · have : pyLower q = [] := by rw [h, hx]; rfl
      simpa [pyLower] using this
  have hn : normalizeQ q = normalizeQ q' := by
    unfold normalizeQ
    rw [pyLower_pyStrip, pyLower_pyStrip, h]
  unfold mapQuestion
  by_cases hq : q = []
  · rw [if_pos hq, if_pos (hnil.mp hq)]
  · rw [if_neg hq, if_neg (fun hx => hq (hnil.mpr hx)), hn]

/-- Witness for C9 at the spec's concrete example pair. -/
theorem claim_C9_witness :
    pyLower (pstr "WHO WORKS AT Contoso?") = pyLower (pstr "who works at Contoso?") ∧
    mapQuestion (pstr "WHO WORKS AT Contoso?") 10 = mapQuestion (pstr "who works at Contoso?") 10 :=
  ⟨by decide, claim_C9 (pstr "WHO WORKS AT Contoso?") (pstr "who works at Contoso?") 10 (by decide)⟩

end KGQA

namespace KGQA

/-- Claim C5: rule evaluation is first-match-wins in the fixed source
order: whenever the rule at index `i` is satisfied by the normalized
question, `map_question` returns the result built by the earliest
satisfied rule `j ≤ i`, every rule before `j` is unsatisfied, and no
later rule contributes. -/
theorem claim_C5 (q : PyStr) (k : Int) (i : Nat) (hi : i < rulesList.length)
    (hp : (rulesList.get ⟨i, hi⟩).1 (normalizeQ q) = true) (hq : q ≠ []) :
    ∃ j, ∃ hj : j < rulesList.length, j ≤ i ∧
      (rulesList.get ⟨j, hj⟩).1 (normalizeQ q) = true ∧
      (∀ m (hm : m < rulesList.length), m < j → (rulesList.get ⟨m, hm⟩).1 (normalizeQ q) = false) ∧
      mapQuestion q k = some ((rulesList.get ⟨j, hj⟩).2 (normalizeQ q) k) := by
  obtain ⟨j, hj, hle, hpj, hmin, hfind⟩ :=
    find?_first_spec (fun r => r.1 (normalizeQ q)) rulesList i hi hp
  refine ⟨j, hj, hle, hpj, hmin, ?_⟩
  rw [mapQuestion_eq_find, if_neg hq, hfind]
  rfl

/-- Witness for C5: a question whose text satisfies both the first rule
(`who works at `, with non-empty remainder) and the later Sachin teams
rule (index 6); the mapping is decided by the earliest satisfied rule. -/
theorem claim_C5_witness :
    (rulesList.get ⟨6, by decide⟩).1
        (normalizeQ (pstr "who works at what teams did sachin tendulkar play for?")) = true ∧
    (∃ j, ∃ hj : j < rulesList.length, j ≤ 6 ∧
      (rulesList.get ⟨j, hj⟩).1
        (normalizeQ (pstr "who works at what teams did sachin tendulkar play for?")) = true ∧
      (∀ m (hm : m < rulesList.length), m < j →
        (rulesList.get ⟨m, hm⟩).1
          (normalizeQ (pstr "who works at what teams did sachin tendulkar play for?")) = false) ∧
      mapQuestion (pstr "who works at what teams did sachin tendulkar play for?") 10 =
        some ((rulesList.get ⟨j, hj⟩).2
          (normalizeQ (pstr "who works at what teams did sachin tendulkar play for?")) 10)) ∧
    mapQuestion (pstr "who works at what teams did sachin tendulkar play for?") 10 =
      some ⟨whoWorksAtQuery,
        [("org", .str (pstr "what teams did sachin tendulkar play for")), ("top_k", .int 10)]⟩ :=
  ⟨by decide,
   claim_C5 (pstr "who works at what teams did sachin tendulkar play for?") 10 6
     (by decide) (by decide) (by decide),
   by decide⟩

/-- Claim C6: for every row limit, the empty question and every
whitespace-only question map to the no-match outcome, and no rule's
predicate is satisfied by the whitespace-only example input. -/
theorem claim_C6 (k : Int) :
    mapQuestion [] k = none ∧
    (∀ q : PyStr, (∀ c ∈ q, isSpace c = true) → mapQuestion q k = none) ∧
    mapQuestion (pstr "   ") k = none ∧
    rulesList.all (fun r => !(r.1 (normalizeQ (pstr "   ")))) = true := by
  refine ⟨rfl, ?_, rfl, by decide⟩
  intro q hq
  unfold mapQuestion
  by_cases hqe : q = []
  · rw [if_pos hqe]
  · rw [if_neg hqe]
    have h1 : lstrip q = [] := by
      unfold lstrip
      rw [List.dropWhile_eq_nil_iff]
      exact fun c hc => hq c hc
    have h2 : normalizeQ q = [] := by
      unfold normalizeQ pyStrip
      rw [h1]
      rfl
    rw [h2]
    rfl

/-- Witness for C6 at `top_k = 10` and a concrete whitespace question. -/
theorem claim_C6_witness :
    mapQuestion [] 10 = none ∧ (∀ c ∈ pstr "  ", isSpace c = true) ∧
    mapQuestion (pstr "  ") 10 = none :=
  ⟨(claim_C6 10).1, by decide, (claim_C6 10).2.1 (pstr "  ") (by decide)⟩

/-- Builders produce a query string that does not depend on the
question text or the row limit — only on which rule fired. -/
theorem build_query_const (i : Nat) (hi : i < rulesList.length)
    (x y : PyStr) (kx ky : Int) :
    ((rulesList.get ⟨i, hi⟩).2 x kx).query = ((rulesList.get ⟨i, hi⟩).2 y ky).query := by
  have h13 : i < 13 := by simpa [rulesList] using hi
  interval_cases i <;> rfl

/-- Claim C8: the returned template never interpolates the question's
variable text: two matches decided by the same rule (same matched rule
index) carry identical query strings, whatever the questions and row
limits were; user-derived content can differ only in the parameter bag. -/
theorem claim_C8 (q1 q2 : PyStr) (k1 k2 : Int) (c1 c2 : CypherQuery) (i : Nat)
    (h1 : mapQuestion q1 k1 = some c1) (h2 : mapQuestion q2 k2 = some c2)
    (hm1 : matchedRuleIdx q1 = some i) (hm2 : matchedRuleIdx q2 = some i) :
    c1.query = c2.query := by
  obtain ⟨hi, hfind1⟩ := firstMatchIdx_spec _ rulesList i hm1
  obtain ⟨_, hfind2⟩ := firstMatchIdx_spec _ rulesList i hm2
  rw [mapQuestion_eq_find] at h1 h2
  by_cases hq1 : q1 = []
  · rw [if_pos hq1] at h1; cases h1
  by_cases hq2 : q2 = []
  · rw [if_pos hq2] at h2; cases h2
  rw [if_neg hq1, hfind1] at h1
  rw [if_neg hq2, hfind2] at h2
  have hc1 : c1 = (rulesList.get ⟨i, hi⟩).2 (normalizeQ q1) k1 := by
    simpa using h1.symm
  have hc2 : c2 = (rulesList.get ⟨i, hi⟩).2 (normalizeQ q2) k2 := by
    simpa using h2.symm
  rw [hc1, hc2]
  exact build_query_const i hi _ _ k1 k2

/-- Witness for C8: two differently-cased, differently-parameterized
`who works at` questions share the exact same query template. -/
theorem claim_C8_witness :
    mapQuestion (pstr "who works at contoso?") 10 =
      some ⟨whoWorksAtQuery, [("org", .str (pstr "contoso")), ("top_k", .int 10)]⟩ ∧
    mapQuestion (pstr "WHO WORKS AT Fabrikam?") 5 =
      some ⟨whoWorksAtQuery, [("org", .str (pstr "fabrikam")), ("top_k", .int 5)]⟩ ∧
    matchedRuleIdx (pstr "who works at contoso?") = some 0 ∧
    matchedRuleIdx (pstr "WHO WORKS AT Fabrikam?") = some 0 ∧
    (CypherQuery.mk whoWorksAtQuery [("org", .str (pstr "contoso")), ("top_k", .int 10)]).query =
      (CypherQuery.mk whoWorksAtQuery [("org", .str (pstr "fabrikam")), ("top_k", .int 5)]).query :=
  ⟨by decide, by decide, by decide, by decide,
   claim_C8 (pstr "who works at contoso?") (pstr "WHO WORKS AT Fabrikam?") 10 5 _ _ 0
     (by decide) (by decide) (by decide) (by decide)⟩

end KGQA

namespace KGQA

/-- Exhaustive enumeration of how `mapBody` can produce a match: the
fired rule's guard held and the result is that rule's builder output. -/
theorem mapBody_some_cases (q : PyStr) (k : Int) (cq : CypherQuery)
    (h : mapBody q k = some cq) :
    (whoWorksAtPred q = true ∧ cq = whoWorksAtBuild q k) ∨
    (whereLocatedPred q = true ∧ cq = whereLocatedBuild q k) ∨
    (listPeoplePred q = true ∧ cq = listPeopleBuild q k) ∨
    (affiliatedPred q = true ∧ cq = affiliatedBuild q k) ∨
    (coachPred q = true ∧ cq = coachBuild q k) ∨
    (whoIsPred q = true ∧ cq = whoIsBuild q k) ∨
    (teamsPred q = true ∧ cq = teamsBuild q k) ∨
    (recordsPred q = true ∧ cq = recordsBuild q k) ∨
    (debutPred q = true ∧ cq = debutBuild q k) ∨
    (retirePred q = true ∧ cq = retireBuild q k) ∨
    (statsPred q = true ∧ cq = statsBuild q k) ∨
    (bornPred q = true ∧ cq = bornBuild q k) ∨
    (tellMeAboutPred q = true ∧ cq = tellMeAboutBuild q k) := by
  rw [mapBody_eq_find] at h
  rcases Option.map_eq_some'.mp h with ⟨r, hfind, hcq⟩
  have hp : r.1 q = true := by simpa using List.find?_some hfind
  have hmem : r ∈ rulesList := List.mem_of_find?_eq_some hfind
  simp only [rulesList, List.mem_cons, List.not_mem_nil, or_false] at hmem
  rcases hmem with rfl | rfl | rfl | rfl | rfl | rfl | rfl | rfl | rfl | rfl | rfl | rfl | rfl
  · exact Or.inl ⟨hp, hcq.symm⟩
  · exact Or.inr (Or.inl ⟨hp, hcq.symm⟩)
  · exact Or.inr (Or.inr (Or.inl ⟨hp, hcq.symm⟩))
  · exact Or.inr (Or.inr (Or.inr (Or.inl ⟨hp, hcq.symm⟩)))
  · exact Or.inr (Or.inr (Or.inr (Or.inr (Or.inl ⟨hp, hcq.symm⟩))))
  · exact Or.inr (Or.inr (Or.inr (Or.inr (Or.inr (Or.inl ⟨hp, hcq.symm⟩)))))
  · exact Or.inr (Or.inr (Or.inr (Or.inr (Or.inr (Or.inr (Or.inl ⟨hp, hcq.symm⟩))))))
  · exact Or.inr (Or.inr (Or.inr (Or.inr (Or.inr (Or.inr (Or.inr (Or.inl ⟨hp, hcq.symm⟩)))))))
  · exact Or.inr (Or.inr (Or.inr (Or.inr (Or.inr (Or.inr (Or.inr (Or.inr (Or.inl ⟨hp, hcq.symm⟩))))))))
  · exact Or.inr (Or.inr (Or.inr (Or.inr (Or.inr (Or.inr (Or.inr (Or.inr (Or.inr (Or.inl ⟨hp, hcq.symm⟩)))))))))
  · exact Or.inr (Or.inr (Or.inr (Or.inr (Or.inr (Or.inr (Or.inr (Or.inr (Or.inr (Or.inr (Or.inl ⟨hp, hcq.symm⟩))))))))))
  · exact Or.inr (Or.inr (Or.inr (Or.inr (Or.inr (Or.inr (Or.inr (Or.inr (Or.inr (Or.inr (Or.inr (Or.inl ⟨hp, hcq.symm⟩)))))))))))
  · exact Or.inr (Or.inr (Or.inr (Or.inr (Or.inr (Or.inr (Or.inr (Or.inr (Or.inr (Or.inr (Or.inr (Or.inr ⟨hp, hcq.symm⟩)))))))))))

/-- Claim C1 (amended): every matched result carries the row limit
unchanged under the fixed key `top_k` — except the `tell me about`
general-info rule, whose bag is `{"person": "Sachin Tendulkar"}` only
and carries no row limit (its template uses a hard-coded `LIMIT 1`). -/
theorem claim_C1 (q : PyStr) (k : Int) (cq : CypherQuery)
    (h : mapQuestion q k = some cq) :
    List.lookup "top_k" cq.parameters = some (.int k) ∨
    (cq.query = tellMeAboutQuery ∧ List.lookup "top_k" cq.parameters = none) := by
  unfold mapQuestion at h
  split at h
  · cases h
  rcases mapBody_some_cases _ _ _ h with
    ⟨_, rfl⟩ | ⟨_, rfl⟩ | ⟨_, rfl⟩ | ⟨_, rfl⟩ | ⟨_, rfl⟩ | ⟨_, rfl⟩ | ⟨_, rfl⟩ |
    ⟨_, rfl⟩ | ⟨_, rfl⟩ | ⟨_, rfl⟩ | ⟨_, rfl⟩ | ⟨_, rfl⟩ | ⟨_, rfl⟩
  · exact Or.inl rfl
  · left
    unfold whereLocatedBuild personParams
    split <;> rfl
  · exact Or.inl rfl
  · left
    unfold affiliatedBuild personParams
    split <;> rfl
  · left
    unfold coachBuild personParams
    split <;> rfl
  · left
    unfold whoIsBuild personParams
    split <;> rfl
  · exact Or.inl rfl
  · exact Or.inl rfl
  · exact Or.inl rfl
  · exact Or.inl rfl
  · exact Or.inl rfl
  · exact Or.inl rfl
  · exact Or.inr ⟨rfl, rfl⟩

/-- Counterexample to C1 as frozen: the matched `tell me about` result
has no `top_k` entry at all in its parameter bag. -/
theorem claim_C1_counterexample :
    mapQuestion (pstr "tell me about sachin tendulkar") 10 =
      some ⟨tellMeAboutQuery, [("person", .str sachinFull)]⟩ ∧
    List.lookup "top_k" [(("person" : String), PValue.str sachinFull)] = none := by
  exact ⟨by decide, rfl⟩

/-- Witness for the amended C1 on a matched rule that does carry the
row limit. -/
theorem claim_C1_witness :
    mapQuestion (pstr "who works at contoso?") 3 =
      some ⟨whoWorksAtQuery, [("org", .str (pstr "contoso")), ("top_k", .int 3)]⟩ ∧
    (List.lookup "top_k"
        (CypherQuery.mk whoWorksAtQuery
          [("org", .str (pstr "contoso")), ("top_k", .int 3)]).parameters = some (.int 3) ∨
      ((CypherQuery.mk whoWorksAtQuery
          [("org", .str (pstr "contoso")), ("top_k", .int 3)]).query = tellMeAboutQuery ∧
        List.lookup "top_k"
          (CypherQuery.mk whoWorksAtQuery
            [("org", .str (pstr "contoso")), ("top_k", .int 3)]).parameters = none)) :=
  ⟨by decide, claim_C1 (pstr "who works at contoso?") 3 _ (by decide)⟩

end KGQA

namespace KGQA

theorem not_isEmpty_of_ne {x : PyStr} (h : x ≠ []) : (!x.isEmpty) = true := by
  cases x with
  | nil => exact absurd rfl h
  | cons a t => rfl

theorem not_isEmpty_of_bne {x : PyStr} (h : (x != []) = true) : (!x.isEmpty) = true :=
  not_isEmpty_of_ne (by simpa using h)

theorem mem_insertUniq {x y : PyStr} {l : List PyStr} : x ∈ insertUniq y l ↔ x = y ∨ x ∈ l := by
  unfold insertUniq
  split
  · rename_i hy
    constructor
    · exact Or.inr
    · rintro (rfl | hx)
      · exact hy
      · exact hx
  · simp [or_comm]

theorem andSnd {a b : Bool} (h : (a && b) = true) : b = true := by
  cases a <;> simp_all

theorem bagNoEmpty_cons (e : String × PValue) (l : ParamBag) :
    bagNoEmpty (e :: l) = (valueOk e.2 && bagNoEmpty l) := rfl

theorem bagNoEmpty_nil : bagNoEmpty [] = true := rfl

theorem mem_normalizePersonInput_ne_nil {s x : PyStr}
    (h : x ∈ normalizePersonInput s) : x ≠ [] := by
  unfold normalizePersonInput at h
  by_cases hp : pyStrip s = []
  · rw [if_pos hp] at h
    cases h
  · rw [if_neg hp] at h
    have := (List.mem_filter.mp h).2
    simpa using this

theorem pyStrip_mem_normalizePersonInput {s : PyStr} (h : pyStrip s ≠ []) :
    pyStrip s ∈ normalizePersonInput s := by
  unfold normalizePersonInput
  rw [if_neg h]
  refine List.mem_filter.mpr ⟨?_, by simpa using h⟩
  have hbase : pyStrip s ∈ insertUniq (pyStrip ((pyStrip s).filter (fun c => c != '.'))) [pyStrip s] :=
    mem_insertUniq.mpr (Or.inr (by simp))
  split
  · exact mem_insertUniq.mpr (Or.inr hbase)
  · exact hbase

theorem valueOk_formatValue (t : PyStr) : valueOk (formatValue t) = true := by
  unfold formatValue
  cases hf : extractFormat t with
  | none => rfl
  | some f =>
    unfold extractFormat at hf
    split_ifs at hf <;> (injection hf with hh; rw [← hh]; decide)

theorem bagNoEmpty_personParams {persons : List PyStr} {fallback : PyStr} (k : Int)
    (hfb : fallback ≠ []) (hmem : ∀ x ∈ persons, x ≠ []) :
    bagNoEmpty (personParams persons fallback k) = true := by
  unfold personParams
  split
  · rename_i hlen
    rw [bagNoEmpty_cons, bagNoEmpty_cons, bagNoEmpty_nil]
    have hv : valueOk (PValue.strlist persons) = true := by
      show (!persons.isEmpty && persons.all (fun x => !x.isEmpty)) = true
      cases persons with
      | nil => simp at hlen
      | cons a t =>
        have h2 : (a :: t).all (fun x => !x.isEmpty) = true := by
          rw [List.all_eq_true]
          intro x hx
          exact not_isEmpty_of_ne (hmem x hx)
        rw [h2]
        rfl
    rw [hv]
    rfl
  · rw [bagNoEmpty_cons, bagNoEmpty_cons, bagNoEmpty_nil]
    have hv : valueOk (PValue.str (persons.headD fallback)) = true := by
      show (!(persons.headD fallback).isEmpty) = true
      cases persons with
      | nil => exact not_isEmpty_of_ne hfb
      | cons a t => exact not_isEmpty_of_ne (hmem a (by simp))
    rw [hv]
    rfl

theorem bagNoEmpty_org (v : PyStr) (k : Int) (hv : v ≠ []) :
    bagNoEmpty [(("org" : String), PValue.str v), (("top_k" : String), PValue.int k)] = true := by
  rw [bagNoEmpty_cons, bagNoEmpty_cons, bagNoEmpty_nil,
    show valueOk (PValue.str v) = true from not_isEmpty_of_ne hv]
  rfl

theorem bagNoEmpty_sachinFmt (v : PValue) (k : Int) (hv : valueOk v = true) :
    bagNoEmpty [(("person" : String), PValue.str sachinFull), (("format" : String), v),
      (("top_k" : String), PValue.int k)] = true := by
  rw [bagNoEmpty_cons, bagNoEmpty_cons, bagNoEmpty_cons, bagNoEmpty_nil, hv]
  rfl

theorem ne_nil_of_bne {x : PyStr} (h : (x != []) = true) : x ≠ [] := by
  intro he
  rw [he] at h
  exact absurd h (by decide)

/-- Claim C2: a matched result never carries an empty extracted value
(every string parameter is non-empty and every alias list is a
non-empty list of non-empty strings), and a question that matches a
marker but reduces to nothing after stripping — `"Who works at ?"`,
`"where is  located?"` — falls through to the no-match outcome. -/
theorem claim_C2 :
    (∀ q k cq, mapQuestion q k = some cq → bagNoEmpty cq.parameters = true) ∧
    mapQuestion (pstr "Who works at ?") 10 = none ∧
    mapQuestion (pstr "where is  located?") 10 = none := by
  refine ⟨?_, by decide, by decide⟩
  intro q k cq h
  unfold mapQuestion at h
  split at h
  · cases h
  rcases mapBody_some_cases _ _ _ h with
    ⟨hp, rfl⟩ | ⟨hp, rfl⟩ | ⟨hp, rfl⟩ | ⟨hp, rfl⟩ | ⟨hp, rfl⟩ | ⟨hp, rfl⟩ | ⟨hp, rfl⟩ |
    ⟨hp, rfl⟩ | ⟨hp, rfl⟩ | ⟨hp, rfl⟩ | ⟨hp, rfl⟩ | ⟨hp, rfl⟩ | ⟨hp, rfl⟩
  · unfold whoWorksAtPred at hp
    exact bagNoEmpty_org _ k (ne_nil_of_bne (andSnd hp))
  · unfold whereLocatedPred at hp
    exact bagNoEmpty_personParams k (ne_nil_of_bne (andSnd hp))
      (fun x hx => mem_normalizePersonInput_ne_nil hx)
  · unfold listPeoplePred at hp
    exact bagNoEmpty_org _ k (ne_nil_of_bne (andSnd hp))
  · unfold affiliatedPred at hp
    exact bagNoEmpty_personParams k (ne_nil_of_bne (andSnd hp))
      (fun x hx => mem_normalizePersonInput_ne_nil hx)
  · unfold coachPred at hp
    exact bagNoEmpty_personParams k (ne_nil_of_bne (andSnd hp))
      (fun x hx => mem_normalizePersonInput_ne_nil hx)
  · unfold whoIsPred at hp
    exact bagNoEmpty_personParams k (ne_nil_of_bne (andSnd hp))
      (fun x hx => mem_normalizePersonInput_ne_nil hx)
  · rfl
  · rfl
  · exact bagNoEmpty_sachinFmt _ k (valueOk_formatValue _)
  · exact bagNoEmpty_sachinFmt _ k (valueOk_formatValue _)
  · exact bagNoEmpty_sachinFmt _ k (valueOk_formatValue _)
  · rfl
  · rfl

/-- Witness for C2 on a concrete matched question. -/
theorem claim_C2_witness :
    mapQuestion (pstr "who works at contoso?") 10 =
      some ⟨whoWorksAtQuery, [("org", .str (pstr "contoso")), ("top_k", .int 10)]⟩ ∧
    bagNoEmpty [(("org" : String), PValue.str (pstr "contoso")),
      (("top_k" : String), PValue.int 10)] = true :=
  ⟨by decide,
   claim_C2.1 (pstr "who works at contoso?") 10
     ⟨whoWorksAtQuery, [("org", .str (pstr "contoso")), ("top_k", .int 10)]⟩ (by decide)⟩

end KGQA

namespace KGQA

theorem insertUniq_nodup {x : PyStr} {l : List PyStr} (h : l.Nodup) :
    (insertUniq x l).Nodup := by
  unfold insertUniq
  split
  · exact h
  · rename_i hx
    refine List.nodup_append.mpr ⟨h, by simp, ?_⟩
    intro a ha hb
    exact hx ((List.mem_singleton.mp hb) ▸ ha)

theorem normalizePersonInput_nodup (s : PyStr) : (normalizePersonInput s).Nodup := by
  unfold normalizePersonInput
  by_cases hp : pyStrip s = []
  · rw [if_pos hp]
    exact List.nodup_nil
  · rw [if_neg hp]
    apply List.Nodup.filter
    have h2 : (insertUniq (pyStrip ((pyStrip s).filter (fun c => c != '.'))) [pyStrip s]).Nodup :=
      insertUniq_nodup (by simp)
    by_cases hc : sachinAliasCond (pyStrip s)
    · rw [if_pos hc]
      exact insertUniq_nodup h2
    · rw [if_neg hc]
      exact h2

theorem mem_normalizePersonInput_iff (s x : PyStr) :
    x ∈ normalizePersonInput s ↔
      x ≠ [] ∧ (x = pyStrip s ∨ x = pyStrip ((pyStrip s).filter (fun c => c != '.')) ∨
        (sachinAliasCond (pyStrip s) ∧ x = sachinFull)) := by
  unfold normalizePersonInput
  by_cases hp : pyStrip s = []
  · rw [if_pos hp]
    constructor
    · intro h
      cases h
    · rintro ⟨hne, (rfl | h2 | ⟨hc, rfl⟩)⟩
      · exact absurd hp hne
      · rw [hp] at h2
        exact absurd (h2.trans rfl) hne
      · rw [hp] at hc
        exact absurd hc (by decide)
  · rw [if_neg hp]
    constructor
    · intro h
      have h1 := List.mem_filter.mp h
      refine ⟨by simpa using h1.2, ?_⟩
      have h2 := h1.1
      by_cases hc : sachinAliasCond (pyStrip s)
      · rw [if_pos hc] at h2
        rcases mem_insertUniq.mp h2 with rfl | h3
        · exact Or.inr (Or.inr ⟨hc, rfl⟩)
        · rcases mem_insertUniq.mp h3 with rfl | h4
          · exact Or.inr (Or.inl rfl)
          · exact Or.inl (List.mem_singleton.mp h4)
      · rw [if_neg hc] at h2
        rcases mem_insertUniq.mp h2 with rfl | h4
        · exact Or.inr (Or.inl rfl)
        · exact Or.inl (List.mem_singleton.mp h4)
    · rintro ⟨hne, hcase⟩
      apply List.mem_filter.mpr
      refine ⟨?_, by simpa using hne⟩
      rcases hcase with rfl | rfl | ⟨hc, rfl⟩
      · have hbase : pyStrip s ∈
            insertUniq (pyStrip ((pyStrip s).filter (fun c => c != '.'))) [pyStrip s] :=
          mem_insertUniq.mpr (Or.inr (by simp))
        by_cases hc : sachinAliasCond (pyStrip s)
        · rw [if_pos hc]
          exact mem_insertUniq.mpr (Or.inr hbase)
        · rw [if_neg hc]
          exact hbase
      · have hbase : pyStrip ((pyStrip s).filter (fun c => c != '.')) ∈
            insertUniq (pyStrip ((pyStrip s).filter (fun c => c != '.'))) [pyStrip s] :=
          mem_insertUniq.mpr (Or.inl rfl)
        by_cases hc : sachinAliasCond (pyStrip s)
        · rw [if_pos hc]
          exact mem_insertUniq.mpr (Or.inr hbase)
        · rw [if_neg hc]
          exact hbase
      · rw [if_pos hc]
        exact mem_insertUniq.mpr (Or.inl rfl)

/-- Claim C3: the alias expander returns a deduplicated collection made
of exactly the trimmed input, the period-stripped input, and — only
under the single-initial + `tendulkar` condition — the literal
`"Sachin Tendulkar"`; with the claim's concrete instances for
`"S. Tendulkar"`, `"Bob"`, the empty and the whitespace-only input. -/
theorem claim_C3 :
    (∀ s x, x ∈ normalizePersonInput s ↔
      x ≠ [] ∧ (x = pyStrip s ∨ x = pyStrip ((pyStrip s).filter (fun c => c != '.')) ∨
        (sachinAliasCond (pyStrip s) ∧ x = sachinFull))) ∧
    (∀ s, (normalizePersonInput s).Nodup) ∧
    (pstr "S. Tendulkar" ∈ normalizePersonInput (pstr "S. Tendulkar") ∧
      pstr "S Tendulkar" ∈ normalizePersonInput (pstr "S. Tendulkar") ∧
      pstr "Sachin Tendulkar" ∈ normalizePersonInput (pstr "S. Tendulkar")) ∧
    normalizePersonInput (pstr "Bob") = [pstr "Bob"] ∧
    normalizePersonInput [] = [] ∧
    normalizePersonInput (pstr "   ") = [] :=
  ⟨mem_normalizePersonInput_iff, normalizePersonInput_nodup,
   ⟨by decide, by decide, by decide⟩, by decide, rfl, by decide⟩

/-- Witness for C3: the deduplication statement applied at the concrete
demo input. -/
theorem claim_C3_witness : (normalizePersonInput (pstr "S. Tendulkar")).Nodup :=
  claim_C3.2.1 (pstr "S. Tendulkar")

/-- Claim C4: the format extractor checks markers in the fixed order
`test`, `odi`, `t20i`/`t20`, `ipl`, `international`, returning the
first matching canonical token; overlapping text resolves to the
earlier check (`"test and odi"` gives `Test`), and `international`
alone — like no marker at all — yields the no-filter sentinel. -/
theorem claim_C4 :
    (∀ t, hasSubstr (pstr "test") t = true → extractFormat t = some (pstr "Test")) ∧
    (∀ t, hasSubstr (pstr "test") t = false → hasSubstr (pstr "odi") t = true →
      extractFormat t = some (pstr "ODI")) ∧
    (∀ t, hasSubstr (pstr "test") t = false → hasSubstr (pstr "odi") t = false →
      (hasSubstr (pstr "t20i") t || hasSubstr (pstr "t20") t) = true →
      extractFormat t = some (pstr "T20I")) ∧
    (∀ t, hasSubstr (pstr "test") t = false → hasSubstr (pstr "odi") t = false →
      hasSubstr (pstr "t20i") t = false → hasSubstr (pstr "t20") t = false →
      hasSubstr (pstr "ipl") t = true → extractFormat t = some (pstr "IPL")) ∧
    (∀ t, hasSubstr (pstr "test") t = false → hasSubstr (pstr "odi") t = false →
      hasSubstr (pstr "t20i") t = false → hasSubstr (pstr "t20") t = false →
      hasSubstr (pstr "ipl") t = false → extractFormat t = none) ∧
    extractFormat (pstr "test and odi") = some (pstr "Test") ∧
    extractFormat (pstr "international") = none ∧
    extractFormat (pstr "hello") = none := by
  refine ⟨?_, ?_, ?_, ?_, ?_, by decide, by decide, by decide⟩
  · intro t h
    unfold extractFormat
    rw [if_pos h]
  · intro t h1 h2
    unfold extractFormat
    rw [if_neg (by simp [h1]), if_pos h2]
  · intro t h1 h2 h3
    unfold extractFormat
    rw [if_neg (by simp [h1]), if_neg (by simp [h2]), if_pos h3]
  · intro t h1 h2 h3 h4 h5
    unfold extractFormat
    rw [if_neg (by simp [h1]), if_neg (by simp [h2]), if_neg (by simp [h3, h4]), if_pos h5]
  · intro t h1 h2 h3 h4 h5
    unfold extractFormat
    rw [if_neg (by simp [h1]), if_neg (by simp [h2]), if_neg (by simp [h3, h4]),
      if_neg (by simp [h5])]
    split <;> rfl

/-- Witness for C4 at the concrete overlapping example. -/
theorem claim_C4_witness :
    hasSubstr (pstr "test") (pstr "test and odi") = true ∧
    extractFormat (pstr "test and odi") = some (pstr "Test") :=
  ⟨by decide, claim_C4.1 (pstr "test and odi") (by decide)⟩

end KGQA

namespace KGQA

theorem personParams_bagSpec (name : PyStr) (k : Int) (hex : name ≠ [])
    (hid : pyStrip name = name) :
    personBagSpec name (personParams (normalizePersonInput name) name k) := by
  have hself : name ∈ normalizePersonInput name := by
    have h1 : pyStrip name ≠ [] := by
      rw [hid]
      exact hex
    have h2 := pyStrip_mem_normalizePersonInput h1
    rwa [hid] at h2
  have hne : normalizePersonInput name ≠ [] := List.ne_nil_of_mem hself
  constructor
  · intro hlen
    constructor
    · unfold personParams
      rw [if_pos hlen]
      rfl
    · unfold personParams
      rw [if_pos hlen]
      rfl
  · intro hlen1
    have hlen : ¬ 1 < (normalizePersonInput name).length := Nat.not_lt.mpr hlen1
    obtain ⟨x, t, hxt⟩ : ∃ x t, normalizePersonInput name = x :: t := by
      cases hpp : normalizePersonInput name with
      | nil => exact absurd hpp hne
      | cons x t => exact ⟨x, t, rfl⟩
    have ht : t = [] := by
      rw [hxt, List.length_cons] at hlen1
      have h0 : t.length = 0 := by omega
      exact List.length_eq_zero.mp h0
    subst ht
    refine ⟨x, hxt, ?_, ?_⟩
    · unfold personParams
      rw [if_neg hlen, hxt]
      rfl
    · unfold personParams
      rw [if_neg hlen]
      rfl

theorem personBagSpec_sachin (bag : ParamBag)
    (hp : List.lookup "person" bag = some (.str sachinFull))
    (hps : List.lookup "persons" bag = none) :
    personBagSpec sachinFull bag := by
  constructor
  · intro hlen
    exact absurd hlen (by decide)
  · intro _
    exact ⟨sachinFull, by decide, hp, hps⟩

/-- Claim C7: for each person-referencing rule that decides the match,
the parameter bag is driven by the alias expansion of the name that
very rule extracted — the whole expansion under `persons` (and no
`person` key) when it has more than one element, its single element
under `person` (and no `persons` key) otherwise; the Sachin-specific
rules supply the fixed name `"Sachin Tendulkar"`, whose expansion is
its own singleton; the two organization rules (indices 0 and 2) carry
neither person key. -/
theorem claim_C7 (q : PyStr) (k : Int) (cq : CypherQuery) (i : Nat)
    (h : mapQuestion q k = some cq) (hm : matchedRuleIdx q = some i) :
    ((i = 0 ∨ i = 2) →
      List.lookup "person" cq.parameters = none ∧
      List.lookup "persons" cq.parameters = none) ∧
    (i = 1 → personBagSpec (extractWhereLocated (normalizeQ q)) cq.parameters) ∧
    (i = 3 → personBagSpec (extractAffiliated (normalizeQ q)) cq.parameters) ∧
    (i = 4 → personBagSpec (extractCoach (normalizeQ q)) cq.parameters) ∧
    (i = 5 → personBagSpec (extractWhoIs (normalizeQ q)) cq.parameters) ∧
    (6 ≤ i → personBagSpec sachinFull cq.parameters) := by
  obtain ⟨hi, hfind⟩ := firstMatchIdx_spec _ rulesList i hm
  rw [mapQuestion_eq_find] at h
  by_cases hq : q = []
  · rw [if_pos hq] at h
    cases h
  rw [if_neg hq, hfind] at h
  have hcq : cq = (rulesList.get ⟨i, hi⟩).2 (normalizeQ q) k := by
    simpa using h.symm
  have hpred : (rulesList.get ⟨i, hi⟩).1 (normalizeQ q) = true := by
    simpa using List.find?_some hfind
  subst hcq
  refine ⟨?_, ?_, ?_, ?_, ?_, ?_⟩
  · rintro (rfl | rfl)
    · exact ⟨rfl, rfl⟩
    · exact ⟨rfl, rfl⟩
  · rintro rfl
    exact personParams_bagSpec _ k (ne_nil_of_bne (andSnd hpred)) (pyStrip_idem _)
  · rintro rfl
    exact personParams_bagSpec _ k (ne_nil_of_bne (andSnd hpred)) (pyStrip_idem _)
  · rintro rfl
    exact personParams_bagSpec _ k (ne_nil_of_bne (andSnd hpred)) (pyStrip_idem _)
  · rintro rfl
    exact personParams_bagSpec _ k (ne_nil_of_bne (andSnd hpred)) (pyStrip_idem _)
  · intro h6
    have h13 : i < 13 := by simpa [rulesList] using hi
    interval_cases i <;> exact personBagSpec_sachin _ rfl rfl

/-- Witness for C7: the multi-alias branch on
`"where is s. tendulkar located?"` (three aliases go under `persons`)
and the singleton branch on the general-info rule. -/
theorem claim_C7_witness :
    matchedRuleIdx (pstr "where is s. tendulkar located?") = some 1 ∧
    1 < (normalizePersonInput (pstr "s. tendulkar")).length ∧
    personBagSpec (pstr "s. tendulkar")
      (personParams (normalizePersonInput (pstr "s. tendulkar")) (pstr "s. tendulkar") 7) ∧
    matchedRuleIdx (pstr "tell me about sachin tendulkar") = some 12 ∧
    personBagSpec sachinFull [(("person" : String), PValue.str sachinFull)] :=
  ⟨by decide, by decide,
   (claim_C7 (pstr "where is s. tendulkar located?") 7
      ⟨whereLocatedQuery,
        personParams (normalizePersonInput (pstr "s. tendulkar")) (pstr "s. tendulkar") 7⟩
      1 (by rfl) (by decide)).2.1 rfl,
   by decide,
   (claim_C7 (pstr "tell me about sachin tendulkar") 10
      ⟨tellMeAboutQuery, [("person", .str sachinFull)]⟩
      12 (by decide) (by decide)).2.2.2.2.2 (by omega)⟩

end KGQA

namespace KGQA

theorem lookup_append_of_some {key : String} {v : PValue} :
    ∀ (l1 l2 : ParamBag), List.lookup key l1 = some v →
      List.lookup key (l1 ++ l2) = some v
  | [], _, h => by simp [List.lookup] at h
  | (a, b) :: t, l2, h => by
    rw [List.cons_append]
    rw [List.lookup] at h ⊢
    cases hk : (key == a) with
    | true => simpa [hk] using h
    | false =>
      rw [hk] at h
      exact lookup_append_of_some t l2 h

theorem lookup_append_of_none {key : String} :
    ∀ (l1 l2 : ParamBag), List.lookup key l1 = none →
      List.lookup key (l1 ++ l2) = List.lookup key l2
  | [], _, _ => by simp
  | (a, b) :: t, l2, h => by
    rw [List.cons_append]
    rw [List.lookup] at h ⊢
    cases hk : (key == a) with
    | true => simp [hk] at h
    | false =>
      rw [hk] at h
      exact lookup_append_of_none t l2 h

theorem syncStep1_append (ps : ParamBag) : ∃ t, syncStep1 ps = ps ++ t := by
  unfold syncStep1
  split
  · split
    · exact ⟨_, rfl⟩
    · exact ⟨[], (List.append_nil ps).symm⟩
  · exact ⟨[], (List.append_nil ps).symm⟩

theorem syncStep2_append (ps : ParamBag) : ∃ t, syncStep2 ps = ps ++ t := by
  unfold syncStep2
  split
  · split
    · split
      · exact ⟨_, rfl⟩
      · exact ⟨[], (List.append_nil ps).symm⟩
    · exact ⟨[], (List.append_nil ps).symm⟩
  · exact ⟨[], (List.append_nil ps).symm⟩

theorem syncPersonParams_append (ps : ParamBag) : ∃ t, syncPersonParams ps = ps ++ t := by
  obtain ⟨t1, h1⟩ := syncStep1_append ps
  obtain ⟨t2, h2⟩ := syncStep2_append (syncStep1 ps)
  exact ⟨t1 ++ t2, by rw [syncPersonParams, h2, h1, List.append_assoc]⟩

/-- Claim C10: the executor wrapper's person/persons normalization
extends the (copied) bag without disturbing any existing binding; when
`person` holds a non-empty string and `persons` is absent it adds
`persons = [person]`, and when `persons` holds a non-empty list and
`person` is absent it adds `person` as the list's head.  (The shallow
copy of the caller's dict is inherent in the embedding: the function
returns a new bag and its input is untouched.) -/
theorem claim_C10 :
    (∀ ps key v, List.lookup key ps = some v →
      List.lookup key (syncPersonParams ps) = some v) ∧
    (∀ ps p, List.lookup "person" ps = some (.str p) → p ≠ [] →
      List.lookup "persons" ps = none →
      List.lookup "persons" (syncPersonParams ps) = some (.strlist [p])) ∧
    (∀ ps x l, List.lookup "persons" ps = some (.strlist (x :: l)) →
      List.lookup "person" ps = none →
      List.lookup "person" (syncPersonParams ps) = some (.str x)) := by
  refine ⟨?_, ?_, ?_⟩
  · intro ps key v h
    obtain ⟨t, ht⟩ := syncPersonParams_append ps
    rw [ht]
    exact lookup_append_of_some ps t h
  · intro ps p hperson hp hpersons
    have h1 : syncStep1 ps = ps := by
      unfold syncStep1
      rw [if_neg]
      intro hcon
      rw [hpersons] at hcon
      exact absurd hcon.1 (by decide)
    rw [syncPersonParams, h1]
    unfold syncStep2
    rw [if_pos ⟨by rw [hperson]; rfl, by rw [hpersons]; rfl⟩, hperson]
    show List.lookup "persons"
        (if p ≠ [] then ps ++ [(("persons" : String), PValue.strlist [p])] else ps) =
      some (PValue.strlist [p])
    rw [if_pos hp, lookup_append_of_none ps _ hpersons]
    rfl
  · intro ps x l hpersons hperson
    have h1 : syncStep1 ps = ps ++ [("person", .str x)] := by
      unfold syncStep1
      rw [if_pos ⟨by rw [hpersons]; rfl, by rw [hperson]; rfl⟩, hpersons]
    have hperson1 : List.lookup "person" (syncStep1 ps) = some (.str x) := by
      rw [h1, lookup_append_of_none ps _ hperson]
      rfl
    have hpersons1 : List.lookup "persons" (syncStep1 ps) = some (.strlist (x :: l)) := by
      rw [h1]
      exact lookup_append_of_some ps _ hpersons
    rw [syncPersonParams]
    unfold syncStep2
    have hng : ¬ ((List.lookup "person" (syncStep1 ps)).isSome = true ∧
        (List.lookup "persons" (syncStep1 ps)).isNone = true) := by
      intro hcon
      rw [hpersons1] at hcon
      exact absurd hcon.2 (by simp)
    rw [if_neg hng]
    exact hperson1

/-- Witness for C10: the two synchronization directions at concrete bags. -/
theorem claim_C10_witness :
    List.lookup "persons"
        (syncPersonParams [(("person" : String), PValue.str (pstr "bob"))]) =
      some (.strlist [pstr "bob"]) ∧
    List.lookup "person"
        (syncPersonParams [(("persons" : String), PValue.strlist [pstr "al", pstr "bo"])]) =
      some (.str (pstr "al")) :=
  ⟨claim_C10.2.1 [(("person" : String), PValue.str (pstr "bob"))] (pstr "bob")
      (by decide) (by decide) (by decide),
   claim_C10.2.2 [(("persons" : String), PValue.strlist [pstr "al", pstr "bo"])]
      (pstr "al") [pstr "bo"] (by decide) (by decide)⟩

end KGQA
